import Mathlib

/-!
Verification of the backtesting engine of the trading-strategy repository.

The position simulator (`BaseStrategy.backtest`), the metrics calculator
(`BaseStrategy.calculate_performance_metrics`) and the display formatter
(`format_metrics_for_display` in `visualizations.py`) are shallowly embedded
over exact rationals.  Prices, cash and percentages are `ℚ`; timestamps are
integer day numbers (the data is daily bars and the code only ever uses
`Timedelta.days`); share counts are `ℤ`.  Python float division by a nonzero
rational is exact division here; the places where the original floats can
overflow/divide-by-zero are noted at each definition.
-/

namespace TS

/-- One input bar: timestamp (day number), close price, the signal attached by
the signal provider, and `extra` standing for every other column of the input
frame (open/high/low/volume, indicator columns), which the simulator carries
along but never reads. -/
structure Bar where
  date : ℤ
  close : ℚ
  signal : ℤ
  extra : List ℚ
deriving DecidableEq, Repr

/-- A closed trade record, with the fields appended by `backtest`
(entry/exit date and price, position type string, profit, percent profit,
duration in days). -/
structure Trade where
  entry_date : ℤ
  exit_date : ℤ
  entry_price : ℚ
  exit_price : ℚ
  position_type : String
  profit_loss : ℚ
  profit_loss_pct : ℚ
  trade_duration : ℤ
deriving DecidableEq, Repr

/-- One row of the augmented bar series: the original bar plus the portfolio
columns `position`, `cash`, `holdings`, `total_value`, `returns`,
`cumulative_returns` added by `backtest`.  During the simulation loop the
`cumulative_returns` column does not exist yet; rows built by the loop carry 0
there and the post-pass `applyCumulative` fills the real value. -/
structure Row where
  bar : Bar
  position : ℤ
  cash : ℚ
  holdings : ℚ
  total_value : ℚ
  returns : ℚ
  cumulative_returns : ℚ
deriving DecidableEq, Repr

/-- The loop state of `backtest`: `current_position`, `entry_price`,
`entry_date` (Python initializes it to `None`; it is only ever read after a
position opened and set it, so it is modelled as an integer starting at 0),
the running cash, and the previous row's total value (the code reads
`df['total_value'].iloc[i-1]`). -/
structure SimState where
  position : ℤ
  entry_price : ℚ
  entry_date : ℤ
  cash : ℚ
  prev_total : ℚ
deriving DecidableEq, Repr

/-- Initial loop state: flat position, all capital in cash, baseline total
value equal to the initial capital (row 0 of the frame). -/
def initState (cap : ℚ) : SimState :=
  { position := 0, entry_price := 0, entry_date := 0, cash := cap, prev_total := cap }

/-- The trade record built when a position closes.  Both the in-loop close and
the end-of-series forced close of `backtest` compute these exact expressions
(the code duplicates them textually); `|position|` is `abs(current_position)`.
The percent formulas divide by `entry_price` resp. `exit_price`, which are
closes of bars and hence positive under the data model. -/
def mkCloseTrade (position : ℤ) (entry_price : ℚ) (entry_date : ℤ)
    (exit_price : ℚ) (exit_date : ℤ) : Trade :=
  if 0 < position then
    { entry_date := entry_date, exit_date := exit_date, entry_price := entry_price,
      exit_price := exit_price, position_type := "LONG",
      profit_loss := (exit_price - entry_price) * (position.natAbs : ℚ),
      profit_loss_pct := (exit_price / entry_price - 1) * 100,
      trade_duration := exit_date - entry_date }
  else
    { entry_date := entry_date, exit_date := exit_date, entry_price := entry_price,
      exit_price := exit_price, position_type := "SHORT",
      profit_loss := (entry_price - exit_price) * (position.natAbs : ℚ),
      profit_loss_pct := (entry_price / exit_price - 1) * 100,
      trade_duration := exit_date - entry_date }

/-- One iteration of the simulation loop of `backtest` (index `i ≥ 1`):
carry the position and cash forward, close on an opposing signal, then, if
flat, open on a nonzero signal when `int(cash // price)` shares are
affordable, and finally recompute holdings, total value and the bar return.
`⌊cash / price⌋` is Python's `int(cash // price)` for the positive prices of
the data model.  Returns the new state, the final values persisted in row `i`,
and the trades appended at this bar. -/
def simStep (st : SimState) (b : Bar) : SimState × Row × List Trade :=
  let price := b.close
  let date := b.date
  let signal := b.signal
  let doClose := (signal = 1 ∧ st.position < 0) ∨ (signal = -1 ∧ 0 < st.position)
  let closedTrades : List Trade :=
    if doClose then [mkCloseTrade st.position st.entry_price st.entry_date price date] else []
  let cash1 : ℚ := if doClose then st.cash + (st.position : ℚ) * price else st.cash
  let pos1 : ℤ := if doClose then 0 else st.position
  let opened : ℤ × ℚ × ℚ × ℤ :=
    if pos1 = 0 then
      let shares : ℤ := ⌊cash1 / price⌋
      if signal = 1 ∧ 0 < shares then (shares, cash1 - (shares : ℚ) * price, price, date)
      else if signal = -1 ∧ 0 < shares then (-shares, cash1 + (shares : ℚ) * price, price, date)
      else (0, cash1, st.entry_price, st.entry_date)
    else (pos1, cash1, st.entry_price, st.entry_date)
  let pos2 : ℤ := opened.1
  let cash2 : ℚ := opened.2.1
  let holdings : ℚ := (pos2 : ℚ) * price
  let total : ℚ := cash2 + holdings
  let ret : ℚ := total / st.prev_total - 1
  ({ position := pos2, entry_price := opened.2.2.1, entry_date := opened.2.2.2,
      cash := cash2, prev_total := total },
   { bar := b, position := pos2, cash := cash2, holdings := holdings,
      total_value := total, returns := ret, cumulative_returns := 0 },
   closedTrades)

/-- The simulation loop over bars 1..N-1, threading the state and collecting
rows and trades in order. -/
def simGo (st : SimState) : List Bar → List Row × List Trade × SimState
  | [] => ([], [], st)
  | b :: bs =>
    let s := simStep st b
    let rest := simGo s.1 bs
    (s.2.1 :: rest.1, s.2.2 ++ rest.2.1, rest.2.2)

/-- Row 0 of the augmented frame: the column initializations
(`position = 0`, `cash = initial_capital`, `holdings = 0`,
`total_value = initial_capital`, `returns = 0`) which the loop never touches
at index 0. -/
def row0 (b : Bar) (cap : ℚ) : Row :=
  { bar := b, position := 0, cash := cap, holdings := 0,
    total_value := cap, returns := 0, cumulative_returns := 0 }

/-- The whole simulation pass: row 0 as baseline, then the loop over the
remaining bars.  Also exposes the final loop state (used by the end-of-series
forced close). -/
def simRun (bars : List Bar) (cap : ℚ) : List Row × List Trade × SimState :=
  match bars with
  | [] => ([], [], initState cap)
  | b :: rest =>
    let r := simGo (initState cap) rest
    (row0 b cap :: r.1, r.2.1, r.2.2)

/-- End-of-series forced close: if a position is still open after the last
bar, append a closing trade at the last bar's close and timestamp, via the
same formulas as the in-loop close.  The frame is not touched. -/
def forceClose (st : SimState) (lastBar : Bar) : List Trade :=
  if st.position ≠ 0 then
    [mkCloseTrade st.position st.entry_price st.entry_date lastBar.close lastBar.date]
  else []

/-- The post-pass `df['cumulative_returns'] = (1 + df['returns']).cumprod() - 1`,
carried out with a running product accumulator. -/
def applyCumulativeAux (acc : ℚ) : List Row → List Row
  | [] => []
  | r :: rs =>
    let acc2 := acc * (1 + r.returns)
    { r with cumulative_returns := acc2 - 1 } :: applyCumulativeAux acc2 rs

/-- Cumulative-returns post-pass over the whole row list. -/
def applyCumulative (rows : List Row) : List Row :=
  applyCumulativeAux 1 rows

/-- `BaseStrategy.backtest` (the simulator proper): simulation pass, the
end-of-series forced close appended to the trade log, then the
cumulative-returns post-pass.  The signal column is taken as input, matching
the spec's view of the signal provider as an external collaborator. -/
def backtest (bars : List Bar) (cap : ℚ) : List Row × List Trade :=
  let r := simRun bars cap
  let forced : List Trade :=
    match bars.getLast? with
    | some lb => forceClose r.2.2 lb
    | none => []
  (applyCumulative r.1, r.2.1 ++ forced)

/-- Comparison definition for the frame-effect claim about the forced close:
`backtest` with the end-of-series forced-close block deleted and nothing else
changed. -/
def backtestNoForceClose (bars : List Bar) (cap : ℚ) : List Row × List Trade :=
  let r := simRun bars cap
  (applyCumulative r.1, r.2.1)

/-- The error pandas raises when `backtest` assigns the 8 Turkish column names
to the trade table built from an empty trade list (`pd.DataFrame([])` has 0
columns, so the `trades_df.columns = [...]` assignment fails). -/
def lengthMismatchMsg : String :=
  "ValueError: Length mismatch: Expected axis has 0 elements, new values have 8 elements"

/-- `backtest` including its final step, the renaming of the trade-table
columns to the 8 Turkish display names: with at least one trade the rename
succeeds and returns the same pair; with an empty trade log it fails with a
length mismatch. -/
def backtestChecked (bars : List Bar) (cap : ℚ) : Except String (List Row × List Trade) :=
  let r := backtest bars cap
  if r.2 = [] then .error lengthMismatchMsg else .ok r

/-- The end-to-end scenario input of the spec: closes 100, 105, 95, 110 on
days 0..3, signals 0, +1, -1, 0, no extra columns. -/
def demoBars : List Bar :=
  [{ date := 0, close := 100, signal := 0, extra := [] },
   { date := 1, close := 105, signal := 1, extra := [] },
   { date := 2, close := 95, signal := -1, extra := [] },
   { date := 3, close := 110, signal := 0, extra := [] }]

/-! ## Metrics calculator -/

/-- Rounding to two decimals, as performed by the `f"{value:.2f}"` formatting
inside `add_arrow`.  Mathlib's `round` rounds half away from the even rule
Python uses only at exact half-cent ties; no value appearing in this
development is such a tie. -/
def round2 (x : ℚ) : ℚ :=
  ((round (x * 100) : ℤ) : ℚ) / 100

/-- Rounding to one decimal, the `f"{value:.1f}"` used for the trade-duration
display string. -/
def round1 (x : ℚ) : ℚ :=
  ((round (x * 10) : ℤ) : ℚ) / 10

/-- A metric value as it lives in the Python metrics dict: a plain integer,
a plain finite float, the float `inf`, a formatted string
`f"{x:.2f} {arrow}"` (recorded as its parsed-back two-decimal value together
with whether the arrow is the up arrow), the string `"inf ↑"`, or a duration
display string `f"{x:.1f} gün"`. -/
inductive MVal where
  | i (n : ℤ)
  | q (x : ℚ)
  | inf
  | s (x : ℚ) (up : Bool)
  | sInf (up : Bool)
  | dur (x : ℚ)
deriving DecidableEq, Repr, Inhabited

/-- The `add_arrow` helper of `calculate_performance_metrics`: numeric values
become `f"{value:.2f}"` plus an up arrow when the (unrounded) value is
positive and a down arrow otherwise; anything else is returned unchanged.
`float('inf')` formats to the string `"inf ↑"`. -/
def add_arrow : MVal → MVal
  | .i n => .s (round2 (n : ℚ)) (decide (0 < n))
  | .q x => .s (round2 x) (decide (0 < x))
  | .inf => .sInf true
  | v => v

/-- The `float(str(value).split()[0])` re-parsing used by the profit-factor
computation: a formatted string yields its rounded numeric part, `str(0)`
yields 0.  (The `.inf` and `.sInf` cases would parse to an infinite float;
they never reach this function in the code paths modelled here.) -/
def parseNum : MVal → ℚ
  | .i n => (n : ℚ)
  | .q x => x
  | .s x _ => x
  | _ => 0

/-- Arithmetic mean (pandas `.mean()`); on the empty list ℚ yields `0/0 = 0`
where pandas yields NaN — every use below is guarded by a nonemptiness test
exactly as in the code. -/
def mean (xs : List ℚ) : ℚ :=
  xs.sum / (xs.length : ℚ)

/-- Sample variance with the pandas default `ddof=1`; for fewer than two
values pandas produces NaN, modelled as 0 (the value is only ever fed to the
abstracted square root, and no claim depends on it). -/
def sampleVar (xs : List ℚ) : ℚ :=
  if xs.length ≤ 1 then 0
  else (xs.map (fun x => (x - mean xs) ^ 2)).sum / ((xs.length : ℚ) - 1)

/-- pandas `cummax` tail: running maximum with accumulator. -/
def cummaxAux (acc : ℚ) : List ℚ → List ℚ
  | [] => []
  | x :: xs =>
    let m := max acc x
    m :: cummaxAux m xs

/-- pandas `Series.cummax`: element `i` is the maximum of the first `i+1`
elements. -/
def cummax : List ℚ → List ℚ
  | [] => []
  | x :: xs => x :: cummaxAux x xs

/-- pandas `Series.min` over a nonempty list (0 for the empty list, never
reached: the drawdown series has one entry per row and the row list is
nonempty wherever this is used). -/
def listMin : List ℚ → ℚ
  | [] => 0
  | x :: xs => xs.foldl min x

/-- The metrics dict keys produced by `calculate_performance_metrics`. -/
structure MetricsSet where
  total_return : MVal
  annual_return : MVal
  volatility : MVal
  sharpe_ratio : MVal
  max_drawdown : MVal
  total_trades : MVal
  winning_trades : MVal
  losing_trades : MVal
  win_rate : MVal
  avg_profit : MVal
  avg_profit_pct : MVal
  avg_loss : MVal
  avg_loss_pct : MVal
  profit_factor : MVal
  avg_trade_duration : MVal
deriving DecidableEq, Repr, Inhabited

/-- A row of the frame after `calculate_performance_metrics` has run: the
original row plus the `previous_peak` and `drawdown` columns the function
writes into its input frame. -/
structure PRow where
  row : Row
  previous_peak : ℚ
  drawdown : ℚ
deriving DecidableEq, Repr

/-- `IndexError` raised by `.iloc[-1]` on an empty frame. -/
def indexErrMsg : String :=
  "IndexError: single positional indexer is out-of-bounds"

/-- `ZeroDivisionError` raised by `365/days` when the elapsed days are 0. -/
def zeroDivMsg : String :=
  "ZeroDivisionError: division by zero"

/-- The body of `calculate_performance_metrics` on the non-error path
(nonempty frame, nonzero elapsed days), given the head row and the rest.
`sqrtf` abstracts `np.sqrt` and `powf` abstracts the float power
`base ** exponent`: their exact real semantics is not rational, and every
claim settled here is independent of their values.  Returns the metrics dict
together with the frame as it stands after the call (the code mutates its
input frame by adding the `previous_peak` and `drawdown` columns). -/
def metricsBody (sqrtf : ℚ → ℚ) (powf : ℚ → ℚ → ℚ)
    (r0 : Row) (rest : List Row) (trades : List Trade) : MetricsSet × List PRow :=
  let rows := r0 :: rest
  let last := rows.getLast (List.cons_ne_nil r0 rest)
  let total_return := add_arrow (.q (last.cumulative_returns * 100))
  let days : ℤ := last.bar.date - r0.bar.date
  let annual_val : ℚ := (powf (1 + last.cumulative_returns) (365 / (days : ℚ)) - 1) * 100
  let annual_return := add_arrow (.q annual_val)
  let rets := rows.map Row.returns
  let stdRet := sqrtf (sampleVar rets)
  let volatility := add_arrow (.q (stdRet * sqrtf 252 * 100))
  -- Python: (annual_return/100 - risk_free_rate) / (std * sqrt(252)); a zero
  -- denominator would give an infinite numpy float, here ℚ-division yields 0;
  -- no claim below touches that case.
  let sharpe := add_arrow (.q ((annual_val / 100 - 1 / 50) / (stdRet * sqrtf 252)))
  let tvs := rows.map Row.total_value
  let peaks := cummax tvs
  let dds := List.zipWith (fun tv pk => (tv - pk) / pk) tvs peaks
  let prows := List.zipWith (fun (r : Row) (pd : ℚ × ℚ) => PRow.mk r pd.1 pd.2)
    rows (List.zip peaks dds)
  let max_drawdown := add_arrow (.q (listMin dds * 100))
  if trades = [] then
    ({ total_return := total_return, annual_return := annual_return,
       volatility := volatility, sharpe_ratio := sharpe, max_drawdown := max_drawdown,
       total_trades := .i 0, winning_trades := .i 0, losing_trades := .i 0,
       win_rate := .i 0, avg_profit := .i 0, avg_profit_pct := .i 0,
       avg_loss := .i 0, avg_loss_pct := .i 0, profit_factor := .i 0,
       avg_trade_duration := .i 0 }, prows)
  else
    let winners := trades.filter (fun t => 0 < t.profit_loss)
    let losers := trades.filter (fun t => ¬ 0 < t.profit_loss)
    let w : ℤ := winners.length
    let totalT : ℤ := trades.length
    let l : ℤ := totalT - w
    let win_rate := add_arrow (.q ((w : ℚ) / (totalT : ℚ) * 100))
    let avg_profit := if 0 < w then add_arrow (.q (mean (winners.map Trade.profit_loss))) else .i 0
    let avg_profit_pct :=
      if 0 < w then add_arrow (.q (mean (winners.map Trade.profit_loss_pct))) else .i 0
    let avg_loss := if 0 < l then add_arrow (.q (mean (losers.map Trade.profit_loss))) else .i 0
    let avg_loss_pct :=
      if 0 < l then add_arrow (.q (mean (losers.map Trade.profit_loss_pct))) else .i 0
    -- Python: if metrics['avg_loss'] != 0 and losing > 0: the stored avg_loss
    -- is a formatted string whenever losers exist, and a string never equals
    -- the integer 0.  The numerator/denominator re-parse the two-decimal
    -- strings.  A zero denominator (average loss rounding to 0.00) makes
    -- numpy produce an infinite float; that branch is modelled as `.inf`.
    let profit_factor :=
      if avg_loss ≠ .i 0 ∧ 0 < l then
        let den := parseNum avg_loss * (l : ℚ)
        if den = 0 then .inf
        else add_arrow (.q |parseNum avg_profit * (w : ℚ) / den|)
      else .inf
    let avg_trade_duration := MVal.q (mean (trades.map (fun t => (t.trade_duration : ℚ))))
    ({ total_return := total_return, annual_return := annual_return,
       volatility := volatility, sharpe_ratio := sharpe, max_drawdown := max_drawdown,
       total_trades := .i totalT, winning_trades := .i w, losing_trades := .i l,
       win_rate := win_rate, avg_profit := avg_profit, avg_profit_pct := avg_profit_pct,
       avg_loss := avg_loss, avg_loss_pct := avg_loss_pct, profit_factor := profit_factor,
       avg_trade_duration := avg_trade_duration }, prows)

/-- `BaseStrategy.calculate_performance_metrics`.  The two ways the Python
function can raise are surfaced as `Except.error`: `.iloc[-1]` on an empty
frame (IndexError) and the `365/days` division when the first and last
timestamp are the same day (ZeroDivisionError).  In the code the raise happens
mid-way through building the dict; the statements executed before it cannot
fail and their results are discarded by the raise (the frame mutation happens
after the division), so hoisting the checks is observationally equivalent. -/
def calculate_performance_metrics (sqrtf : ℚ → ℚ) (powf : ℚ → ℚ → ℚ)
    (rows : List Row) (trades : List Trade) : Except String (MetricsSet × List PRow) :=
  match rows with
  | [] => .error indexErrMsg
  | r0 :: rest =>
    if ((r0 :: rest).getLast (List.cons_ne_nil r0 rest)).bar.date - r0.bar.date = 0 then
      .error zeroDivMsg
    else
      .ok (metricsBody sqrtf powf r0 rest trades)

/-! ## Display formatting (`visualizations.format_metrics_for_display`) -/

/-- The `add_arrow` helper inside `format_metrics_for_display`: numeric values
are formatted as in the base helper; a string containing a space has its first
token re-parsed as a float and re-formatted, with the arrow re-derived from
the parsed (already rounded) value; `float("inf")` parses fine and is
positive. -/
def viz_add_arrow : MVal → MVal
  | .i n => .s (round2 (n : ℚ)) (decide (0 < n))
  | .q x => .s (round2 x) (decide (0 < x))
  | .inf => .sInf true
  | .s x _ => .s (round2 x) (decide (0 < x))
  | .sInf _ => .sInf true
  | .dur x => .dur x

/-- Python's `value != 0` on a metric value: only the integer 0 and the float
0.0 compare equal to 0; strings and infinities never do. -/
def isPyZero : MVal → Bool
  | .i n => n = 0
  | .q x => x = 0
  | _ => false

/-- Per-key treatment of the `numeric_metrics` keys in
`format_metrics_for_display`: `if key in metrics and metrics[key] != 0`
arrow-annotate, `else` pass the stored value through untouched.  All keys are
always present in the dict built by `calculate_performance_metrics`. -/
def fmtNumericEntry (v : MVal) : MVal :=
  if isPyZero v then v else viz_add_arrow v

/-- The `f"{value:.1f} gün"` duration formatting (numeric inputs only; the
value stored under `avg_trade_duration` is always an int or float). -/
def fmtDuration : MVal → MVal
  | .i n => .dur (round1 (n : ℚ))
  | .q x => .dur (round1 x)
  | v => v

/-- `format_metrics_for_display`: the eleven `numeric_metrics` keys go through
the zero-guarded arrow annotation, the three count keys are copied unchanged,
and the duration gets the one-decimal day-unit string. -/
def format_metrics_for_display (m : MetricsSet) : MetricsSet :=
  { total_return := fmtNumericEntry m.total_return,
    annual_return := fmtNumericEntry m.annual_return,
    volatility := fmtNumericEntry m.volatility,
    win_rate := fmtNumericEntry m.win_rate,
    max_drawdown := fmtNumericEntry m.max_drawdown,
    avg_profit := fmtNumericEntry m.avg_profit,
    avg_loss := fmtNumericEntry m.avg_loss,
    avg_profit_pct := fmtNumericEntry m.avg_profit_pct,
    avg_loss_pct := fmtNumericEntry m.avg_loss_pct,
    sharpe_ratio := fmtNumericEntry m.sharpe_ratio,
    profit_factor := fmtNumericEntry m.profit_factor,
    total_trades := m.total_trades,
    winning_trades := m.winning_trades,
    losing_trades := m.losing_trades,
    avg_trade_duration := fmtDuration m.avg_trade_duration }

/-! ## Concrete evaluation scaffolding -/

/-- demoBars with an extra column value on the first bar; the portfolio
outcome must not depend on it. -/
def demoBarsX : List Bar :=
  [{ date := 0, close := 100, signal := 0, extra := [7] },
   { date := 1, close := 105, signal := 1, extra := [] },
   { date := 2, close := 95, signal := -1, extra := [] },
   { date := 3, close := 110, signal := 0, extra := [] }]

/-- A flat two-row augmented frame spanning five days (days 0 and 5),
used as a concrete metrics input. -/
def demoRows : List Row :=
  [{ bar := { date := 0, close := 100, signal := 0, extra := [] },
     position := 0, cash := 1000, holdings := 0, total_value := 1000,
     returns := 0, cumulative_returns := 0 },
   { bar := { date := 5, close := 100, signal := 0, extra := [] },
     position := 0, cash := 1000, holdings := 0, total_value := 1000,
     returns := 0, cumulative_returns := 0 }]

/-- A single-row frame: its first and last timestamp coincide, so the
elapsed days are 0. -/
def demoRowsD0 : List Row :=
  [{ bar := { date := 0, close := 100, signal := 0, extra := [] },
     position := 0, cash := 1000, holdings := 0, total_value := 1000,
     returns := 0, cumulative_returns := 0 }]

/-- Placeholder square root for instantiating the abstracted `np.sqrt` in
concrete evaluations; no settled claim depends on its values. -/
def dummySqrt : ℚ → ℚ := fun _ => 0

/-- Placeholder float power for instantiating the abstracted `**` in concrete
evaluations; no settled claim depends on its values. -/
def dummyPow : ℚ → ℚ → ℚ := fun _ _ => 0

/-- The metrics dict computed on a concrete input (default on the error
branch; only used at inputs where the computation succeeds). -/
def metricsOk (rows : List Row) (trades : List Trade) : MetricsSet :=
  match calculate_performance_metrics dummySqrt dummyPow rows trades with
  | .ok (m, _) => m
  | .error _ => default

/-- The post-call frame computed on a concrete input (empty on the error
branch; only used at inputs where the computation succeeds). -/
def prowsOk (rows : List Row) (trades : List Trade) : List PRow :=
  match calculate_performance_metrics dummySqrt dummyPow rows trades with
  | .ok (_, p) => p
  | .error _ => []

/-- A closed trade with a given profit, all other fields fixed; enough to
exercise the trade-derived metrics. -/
def mkT (pl : ℚ) : Trade :=
  { entry_date := 0, exit_date := 1, entry_price := 100, exit_price := 100,
    position_type := "LONG", profit_loss := pl, profit_loss_pct := 0,
    trade_duration := 1 }

/-- Four trades: winners 1, 1, 2 (mean 4/3) and one loser -1. -/
def demoTrades6 : List Trade :=
  [mkT 1, mkT 1, mkT 2, mkT (-1)]

/-- Modelled from the spec (section 4.2): `profit_factor =
|avg_profit × winning_trades / (avg_loss × losing_trades)|` with the exact
averages over winners and losers.  Comparison definition for the
profit-factor claim. -/
def profit_factor_specFormula (trades : List Trade) : ℚ :=
  let winners := trades.filter (fun t => 0 < t.profit_loss)
  let losers := trades.filter (fun t => ¬ 0 < t.profit_loss)
  |mean (winners.map Trade.profit_loss) * (winners.length : ℚ) /
    (mean (losers.map Trade.profit_loss) * (losers.length : ℚ))|

/-- The bar fields the simulator actually reads: timestamp, close, signal. -/
def barSig (b : Bar) : ℤ × ℚ × ℤ :=
  (b.date, b.close, b.signal)

/-- The portfolio columns of a row (everything `backtest` writes). -/
def rowData (r : Row) : ℤ × ℚ × ℚ × ℚ × ℚ × ℚ :=
  (r.position, r.cash, r.holdings, r.total_value, r.returns, r.cumulative_returns)

/-- Prefix maximum: the maximum of the first `i+1` elements of the list
(spec-side description of what `cummax` computes). -/
def prefixMax : List ℚ → ℕ → ℚ
  | [], _ => 0
  | x :: _, 0 => x
  | x :: xs, i + 1 => max x (prefixMax xs i)

/-! ## Claim C1 -/

/-- C1 counterexample: on the spec's end-to-end scenario the code does not
stop after closing the long at bar 2 — the open-on-signal step's condition is
met (`signal = -1`, `floor(910/95) = 9 > 0`), so a short is opened in the same
bar.  The returned trade log has two trades, not exactly one; the persisted
bar-2 cash is 1765, not 910; and bar 3's total value is 775, not 910. -/
theorem C1_counterexample :
    (backtest demoBars 1000).2.length = 2 ∧ (2 : ℕ) ≠ 1 ∧
    (backtest demoBars 1000).1.map Row.cash = [1000, 55, 1765, 1765] ∧
    ((1765 : ℚ) ≠ 910) ∧
    (backtest demoBars 1000).1.map Row.total_value = [1000, 1000, 910, 775] ∧
    ((775 : ℚ) ≠ 910) := by
  norm_num [backtest, simRun, simGo, simStep, mkCloseTrade, row0, initState,
    forceClose, applyCumulative, applyCumulativeAux, demoBars, List.getLast?]

/-- C1 amended: with bars (closes 100, 105, 95, 110; signals 0, +1, -1, 0) and
initial capital 1000, bar 1 opens a 9-share long (cash 55); bar 2 closes it at
95 with profit −90 and percent profit −200/21 ≈ −9.52, and then, since the
open-on-signal condition is independently met, immediately opens a 9-share
short at 95, leaving cash 1765, holdings −855 and total value 910; bar 3 stays
short with total value 775; the trade log has exactly two trades, the closed
long (−90) and the end-of-series forced close of the short (−135). -/
theorem C1_amended :
    backtest demoBars 1000 =
      ([{ bar := { date := 0, close := 100, signal := 0, extra := [] },
          position := 0, cash := 1000, holdings := 0, total_value := 1000,
          returns := 0, cumulative_returns := 0 },
        { bar := { date := 1, close := 105, signal := 1, extra := [] },
          position := 9, cash := 55, holdings := 945, total_value := 1000,
          returns := 0, cumulative_returns := 0 },
        { bar := { date := 2, close := 95, signal := -1, extra := [] },
          position := -9, cash := 1765, holdings := -855, total_value := 910,
          returns := -9/100, cumulative_returns := -9/100 },
        { bar := { date := 3, close := 110, signal := 0, extra := [] },
          position := -9, cash := 1765, holdings := -990, total_value := 775,
          returns := -27/182, cumulative_returns := -9/40 }],
       [{ entry_date := 1, exit_date := 2, entry_price := 105, exit_price := 95,
          position_type := "LONG", profit_loss := -90,
          profit_loss_pct := -200/21, trade_duration := 1 },
        { entry_date := 2, exit_date := 3, entry_price := 95, exit_price := 110,
          position_type := "SHORT", profit_loss := -135,
          profit_loss_pct := -150/11, trade_duration := 1 }]) := by
  norm_num [backtest, simRun, simGo, simStep, mkCloseTrade, row0, initState,
    forceClose, applyCumulative, applyCumulativeAux, demoBars, List.getLast?]

/-! ## Claim C2 -/

/-- The row persisted by one loop iteration satisfies the conservation
equalities: the loop body ends with `holdings = position * close` and
`total_value = cash + holdings`. -/
theorem simStep_row_inv (st : SimState) (b : Bar) :
    (simStep st b).2.1.total_value = (simStep st b).2.1.cash + (simStep st b).2.1.holdings ∧
    (simStep st b).2.1.holdings = ((simStep st b).2.1.position : ℚ) * (simStep st b).2.1.bar.close :=
  ⟨rfl, rfl⟩

/-- Every row produced by the simulation loop satisfies the conservation
equalities. -/
theorem simGo_row_inv (st : SimState) (bs : List Bar) :
    ∀ r ∈ (simGo st bs).1,
      r.total_value = r.cash + r.holdings ∧
      r.holdings = (r.position : ℚ) * r.bar.close := by
  induction bs generalizing st with
  | nil => intro r hr; simp [simGo] at hr
  | cons b bs ih =>
    intro r hr
    simp only [simGo, List.mem_cons] at hr
    rcases hr with h | h
    · subst h; exact simStep_row_inv st b
    · exact ih _ r h

/-- The cumulative-returns post-pass only rewrites the `cumulative_returns`
column: every output row agrees with some input row on all other columns. -/
theorem applyCumulativeAux_mem (rows : List Row) :
    ∀ (acc : ℚ) (r : Row), r ∈ applyCumulativeAux acc rows →
      ∃ r0 ∈ rows, r.total_value = r0.total_value ∧ r.cash = r0.cash ∧
        r.holdings = r0.holdings ∧ r.position = r0.position ∧ r.bar = r0.bar := by
  induction rows with
  | nil => intro acc r h; simp [applyCumulativeAux] at h
  | cons r0 rs ih =>
    intro acc r h
    simp only [applyCumulativeAux, List.mem_cons] at h
    rcases h with h | h
    · exact ⟨r0, List.mem_cons_self r0 rs, by subst h; exact ⟨rfl, rfl, rfl, rfl, rfl⟩⟩
    · obtain ⟨r1, hr1, he⟩ := ih _ r h
      exact ⟨r1, List.mem_cons_of_mem _ hr1, he⟩

/-- C2: at every bar of the augmented series returned by the simulator,
`total_value = cash + holdings` exactly, and `holdings = position × close`,
for every bar series with positive closes and every positive initial
capital. -/
theorem C2_conservation (bars : List Bar) (cap : ℚ) (hcap : 0 < cap)
    (hclose : ∀ b ∈ bars, 0 < b.close) :
    ∀ r ∈ (backtest bars cap).1,
      r.total_value = r.cash + r.holdings ∧
      r.holdings = (r.position : ℚ) * r.bar.close := by
  intro r hr
  have hrows : ∀ r ∈ (simRun bars cap).1,
      r.total_value = r.cash + r.holdings ∧
      r.holdings = (r.position : ℚ) * r.bar.close := by
    intro r hr
    cases bars with
    | nil => simp [simRun] at hr
    | cons b rest =>
      simp only [simRun, List.mem_cons] at hr
      rcases hr with h | h
      · subst h
        refine ⟨by simp [row0], by simp [row0]⟩
      · exact simGo_row_inv _ _ r h
  have hr2 : r ∈ applyCumulativeAux 1 (simRun bars cap).1 := hr
  obtain ⟨r0, hr0, h1, h2, h3, h4, h5⟩ := applyCumulativeAux_mem _ _ _ hr2
  obtain ⟨hA, hB⟩ := hrows r0 hr0
  rw [h1, h2, h3, h4, h5]
  exact ⟨hA, hB⟩

/-- The bar-2 row of the end-to-end scenario. -/
def demoRow2 : Row :=
  { bar := { date := 2, close := 95, signal := -1, extra := [] },
    position := -9, cash := 1765, holdings := -855, total_value := 910,
    returns := -9/100, cumulative_returns := -9/100 }

/-- Witness for C2 at a concrete input: the conservation equalities hold at
the bar-2 row of the end-to-end scenario. -/
theorem C2_witness :
    demoRow2.total_value = demoRow2.cash + demoRow2.holdings ∧
    demoRow2.holdings = (demoRow2.position : ℚ) * demoRow2.bar.close :=
  C2_conservation demoBars 1000 (by norm_num)
    (by norm_num [demoBars])
    demoRow2
    (by norm_num [demoRow2, backtest, simRun, simGo, simStep, mkCloseTrade, row0,
      initState, forceClose, applyCumulative, applyCumulativeAux, demoBars, List.getLast?])

/-! ## Claim C3 -/

/-- The trade built by the close formulas exits at the given price in both
the long and the short branch. -/
theorem mkCloseTrade_exit_price (p : ℤ) (ep xp : ℚ) (ed xd : ℤ) :
    (mkCloseTrade p ep ed xp xd).exit_price = xp := by
  unfold mkCloseTrade
  split <;> rfl

/-- The trade built by the close formulas exits at the given date in both
branches. -/
theorem mkCloseTrade_exit_date (p : ℤ) (ep xp : ℚ) (ed xd : ℤ) :
    (mkCloseTrade p ep ed xp xd).exit_date = xd := by
  unfold mkCloseTrade
  split <;> rfl

/-- C3: if a position is still open after the last bar, the simulator's trade
log is the no-force-close trade log plus one trade built by the same close
formulas (`mkCloseTrade`, the function used by the in-loop close) at the last
bar's close price and timestamp — and the augmented frame (cash, holdings,
total value, returns, cumulative returns columns) is identical with and
without the forced close. -/
theorem C3_force_close (bars : List Bar) (cap : ℚ) (hne : bars ≠ [])
    (hpos : (simRun bars cap).2.2.position ≠ 0) :
    (backtest bars cap).1 = (backtestNoForceClose bars cap).1 ∧
    (backtest bars cap).2 = (backtestNoForceClose bars cap).2 ++
      [mkCloseTrade (simRun bars cap).2.2.position (simRun bars cap).2.2.entry_price
        (simRun bars cap).2.2.entry_date (bars.getLast hne).close (bars.getLast hne).date] ∧
    (mkCloseTrade (simRun bars cap).2.2.position (simRun bars cap).2.2.entry_price
        (simRun bars cap).2.2.entry_date (bars.getLast hne).close
        (bars.getLast hne).date).exit_price = (bars.getLast hne).close ∧
    (mkCloseTrade (simRun bars cap).2.2.position (simRun bars cap).2.2.entry_price
        (simRun bars cap).2.2.entry_date (bars.getLast hne).close
        (bars.getLast hne).date).exit_date = (bars.getLast hne).date := by
  refine ⟨rfl, ?_, mkCloseTrade_exit_price _ _ _ _ _, mkCloseTrade_exit_date _ _ _ _ _⟩
  unfold backtest backtestNoForceClose
  rw [List.getLast?_eq_getLast bars hne]
  simp [forceClose, hpos]

/-- Witness for C3 at the end-to-end scenario input, where a 9-share short is
still open after the last bar. -/
theorem C3_witness :
    (backtest demoBars 1000).1 = (backtestNoForceClose demoBars 1000).1 :=
  (C3_force_close demoBars 1000 (by simp [demoBars])
    (by norm_num [simRun, simGo, simStep, mkCloseTrade, initState, demoBars])).1

/-! ## Claim C4 -/

/-- A single-bar input series. -/
def oneBar : List Bar :=
  [{ date := 0, close := 100, signal := 1, extra := [] }]

/-- C4 counterexample: with one bar the simulation is not rejected before the
loop — the loop runs zero iterations and the simulation completes, returning
the baseline row and an empty trade log; the call then fails only at the
post-simulation column renaming of the empty trade table. -/
theorem C4_counterexample :
    backtest oneBar 1000 =
      ([{ bar := { date := 0, close := 100, signal := 1, extra := [] },
          position := 0, cash := 1000, holdings := 0, total_value := 1000,
          returns := 0, cumulative_returns := 0 }], []) ∧
    backtestChecked oneBar 1000 = .error lengthMismatchMsg := by
  norm_num [backtest, backtestChecked, simRun, simGo, simStep, row0, initState,
    forceClose, applyCumulative, applyCumulativeAux, oneBar, List.getLast?]

/-- C4 amended: fewer than 2 bars is not rejected before the simulation loop;
the loop degrades to zero iterations (one baseline row per input bar, empty
trade log) and the call then fails with the pandas length-mismatch error when
the 8 column names are assigned to the empty trade table — an error arising
after the simulation, which equally affects any longer run with no trades. -/
theorem C4_amended (bars : List Bar) (cap : ℚ) (h : bars.length < 2) :
    (backtest bars cap).1.length = bars.length ∧
    (backtest bars cap).2 = [] ∧
    backtestChecked bars cap = .error lengthMismatchMsg := by
  cases bars with
  | nil =>
    norm_num [backtest, backtestChecked, simRun, applyCumulative,
      applyCumulativeAux, List.getLast?]
  | cons b rest =>
    cases rest with
    | nil =>
      norm_num [backtest, backtestChecked, simRun, simGo, row0, initState,
        forceClose, applyCumulative, applyCumulativeAux, List.getLast?]
    | cons b2 rest2 =>
      simp only [List.length_cons] at h
      omega

/-- Witness for C4 at a concrete single-bar input. -/
theorem C4_witness :
    (backtest oneBar 500).1.length = oneBar.length ∧
    (backtest oneBar 500).2 = [] ∧
    backtestChecked oneBar 500 = .error lengthMismatchMsg :=
  C4_amended oneBar 500 (by norm_num [oneBar])

/-! ## Claim C5 -/

/-- The single row of the zero-elapsed-days frame. -/
def rowD0 : Row :=
  { bar := { date := 0, close := 100, signal := 0, extra := [] },
    position := 0, cash := 1000, holdings := 0, total_value := 1000,
    returns := 0, cumulative_returns := 0 }

/-- C5 counterexample: on a frame whose first and last timestamps are the same
day the metrics computation raises the division-by-zero error from
`365/days`; it does not return a metrics set with sentinel values. -/
theorem C5_counterexample :
    calculate_performance_metrics dummySqrt dummyPow [rowD0] [] = .error zeroDivMsg := by
  norm_num [calculate_performance_metrics, rowD0, List.getLast_singleton]

/-- C5 amended: whenever the elapsed days between the first and last timestamp
of a nonempty frame are 0, `calculate_performance_metrics` raises
ZeroDivisionError (the `365/days` division) instead of returning a metrics
set, for every square root and power semantics and every trade log. -/
theorem C5_amended (sqrtf : ℚ → ℚ) (powf : ℚ → ℚ → ℚ) (r0 : Row) (rest : List Row)
    (trades : List Trade)
    (hd : ((r0 :: rest).getLast (List.cons_ne_nil r0 rest)).bar.date - r0.bar.date = 0) :
    calculate_performance_metrics sqrtf powf (r0 :: rest) trades = .error zeroDivMsg := by
  have hstep : calculate_performance_metrics sqrtf powf (r0 :: rest) trades =
      if ((r0 :: rest).getLast (List.cons_ne_nil r0 rest)).bar.date - r0.bar.date = 0 then
        .error zeroDivMsg
      else .ok (metricsBody sqrtf powf r0 rest trades) := rfl
  rw [hstep, if_pos hd]

/-- Witness for C5 at a concrete zero-elapsed-days input with a nonempty trade
log. -/
theorem C5_witness :
    calculate_performance_metrics dummySqrt dummyPow [rowD0] [mkT 1] = .error zeroDivMsg :=
  C5_amended dummySqrt dummyPow rowD0 [] [mkT 1]
    (by norm_num [rowD0, List.getLast_singleton])

/-! ## Claim C7 -/

/-- C7: whenever the metrics computation returns on an empty trade log, every
trade-derived metric in the returned set is the plain integer 0 — not
infinity, not NaN, not a formatted string. -/
theorem C7_empty_trades (sqrtf : ℚ → ℚ) (powf : ℚ → ℚ → ℚ) (rows : List Row)
    (m : MetricsSet) (prows : List PRow)
    (h : calculate_performance_metrics sqrtf powf rows [] = .ok (m, prows)) :
    m.total_trades = .i 0 ∧ m.winning_trades = .i 0 ∧ m.losing_trades = .i 0 ∧
    m.win_rate = .i 0 ∧ m.avg_profit = .i 0 ∧ m.avg_profit_pct = .i 0 ∧
    m.avg_loss = .i 0 ∧ m.avg_loss_pct = .i 0 ∧ m.profit_factor = .i 0 ∧
    m.avg_trade_duration = .i 0 := by
  cases rows with
  | nil => simp [calculate_performance_metrics] at h
  | cons r0 rest =>
    have hstep : calculate_performance_metrics sqrtf powf (r0 :: rest) [] =
        if ((r0 :: rest).getLast (List.cons_ne_nil r0 rest)).bar.date - r0.bar.date = 0 then
          .error zeroDivMsg
        else .ok (metricsBody sqrtf powf r0 rest []) := rfl
    rw [hstep] at h
    split at h
    · simp at h
    · simp only [Except.ok.injEq] at h
      have hm : m = (metricsBody sqrtf powf r0 rest []).1 := by rw [h]
      subst hm
      simp [metricsBody]

/-- Witness for C7 at the concrete flat two-row frame with an empty trade
log. -/
theorem C7_witness :
    (metricsOk demoRows []).total_trades = .i 0 ∧
    (metricsOk demoRows []).winning_trades = .i 0 ∧
    (metricsOk demoRows []).losing_trades = .i 0 ∧
    (metricsOk demoRows []).win_rate = .i 0 ∧
    (metricsOk demoRows []).avg_profit = .i 0 ∧
    (metricsOk demoRows []).avg_profit_pct = .i 0 ∧
    (metricsOk demoRows []).avg_loss = .i 0 ∧
    (metricsOk demoRows []).avg_loss_pct = .i 0 ∧
    (metricsOk demoRows []).profit_factor = .i 0 ∧
    (metricsOk demoRows []).avg_trade_duration = .i 0 := by
  have hEval : calculate_performance_metrics dummySqrt dummyPow demoRows [] =
      .ok (metricsOk demoRows [], prowsOk demoRows []) := by
    have hstep : calculate_performance_metrics dummySqrt dummyPow demoRows [] =
        if ((demoRows.get ⟨0, by norm_num [demoRows]⟩ ::
              [demoRows.get ⟨1, by norm_num [demoRows]⟩]).getLast (by simp)).bar.date -
            (demoRows.get ⟨0, by norm_num [demoRows]⟩).bar.date = 0 then
          .error zeroDivMsg
        else .ok (metricsBody dummySqrt dummyPow (demoRows.get ⟨0, by norm_num [demoRows]⟩)
          [demoRows.get ⟨1, by norm_num [demoRows]⟩] []) := rfl
    simp only [metricsOk, prowsOk, hstep]
    norm_num [demoRows]
  exact C7_empty_trades dummySqrt dummyPow demoRows _ _ hEval

/-! ## Claim C6 -/

/-- A formatted-string metric value is never the integer 0 (used to resolve
the profit-factor branch condition). -/
theorem MVal_s_eq_i_iff (x : ℚ) (b : Bool) (n : ℤ) : MVal.s x b = MVal.i n ↔ False :=
  ⟨fun h => MVal.noConfusion h, False.elim⟩

/-- C6 counterexample: on the trade log with winners 1, 1, 2 and loser −1 the
code computes profit factor 3.99 — the winners' average 4/3 is formatted to
the two-decimal string "1.33" and re-parsed — whereas
`|avg_profit × winning / (avg_loss × losing)|` with the exact averages is 4.
So the claim's equation fails: the stored metric is not the arrow-annotated
exact value. -/
theorem C6_counterexample :
    (metricsOk demoRows demoTrades6).profit_factor = .s (399/100) true ∧
    profit_factor_specFormula demoTrades6 = 4 ∧
    ((399 : ℚ)/100 ≠ 4) ∧
    (metricsOk demoRows demoTrades6).profit_factor ≠
      add_arrow (.q (profit_factor_specFormula demoTrades6)) := by
  have hstep : metricsOk demoRows demoTrades6 =
      (metricsBody dummySqrt dummyPow (demoRows.get ⟨0, by norm_num [demoRows]⟩)
        [demoRows.get ⟨1, by norm_num [demoRows]⟩] demoTrades6).1 := rfl
  have hspec : profit_factor_specFormula demoTrades6 = 4 := by
    norm_num [profit_factor_specFormula, demoTrades6, mkT, mean]
  have hpf : (metricsOk demoRows demoTrades6).profit_factor = .s (399/100) true := by
    rw [hstep]
    norm_num [metricsBody, demoRows, demoTrades6, mkT, mean, round2, round_eq,
      parseNum, add_arrow, List.cons_ne_nil, MVal_s_eq_i_iff]
    rw [show |(399 : ℚ)/100| = 399/100 from abs_of_pos (by norm_num)]
    norm_num
  refine ⟨hpf, hspec, by norm_num, ?_⟩
  rw [hpf, hspec]
  intro hcontra
  rw [show add_arrow (.q 4) = MVal.s (round2 4) (decide ((0 : ℚ) < 4)) from rfl] at hcontra
  rw [MVal.s.injEq] at hcontra
  have h1 : (399 : ℚ)/100 = round2 4 := hcontra.1
  rw [round2] at h1
  norm_num [round_eq] at h1

/-- C6 amended: for a metrics computation that returns on a nonempty trade
log, the profit factor is `+infinity` when there are no losing trades; when
losers exist (and the rounded average loss is nonzero, so the re-parsed
denominator is nonzero) it equals the arrow-annotated value of
`|round2(avg_profit) × winning / (round2(avg_loss) × losing)|`, where
`round2` is the two-decimal rounding introduced by formatting the averages as
display strings and re-parsing them — not the exact-average formula of the
spec. -/
theorem C6_profit_factor_amended (sqrtf : ℚ → ℚ) (powf : ℚ → ℚ → ℚ)
    (rows : List Row) (trades : List Trade) (m : MetricsSet) (prows : List PRow)
    (h : calculate_performance_metrics sqrtf powf rows trades = .ok (m, prows))
    (hne : trades ≠ []) :
    (((trades.filter (fun t => 0 < t.profit_loss)).length : ℤ) = (trades.length : ℤ) →
      m.profit_factor = .inf) ∧
    (((trades.filter (fun t => 0 < t.profit_loss)).length : ℤ) < (trades.length : ℤ) →
      round2 (mean ((trades.filter (fun t => ¬ 0 < t.profit_loss)).map Trade.profit_loss)) ≠ 0 →
      m.profit_factor = add_arrow (.q
        |round2 (mean ((trades.filter (fun t => 0 < t.profit_loss)).map Trade.profit_loss)) *
            ((trades.filter (fun t => 0 < t.profit_loss)).length : ℚ) /
          (round2 (mean ((trades.filter (fun t => ¬ 0 < t.profit_loss)).map Trade.profit_loss)) *
            ((trades.length : ℚ) - ((trades.filter (fun t => 0 < t.profit_loss)).length : ℚ)))|)) := by
  cases rows with
  | nil => simp [calculate_performance_metrics] at h
  | cons r0 rest =>
    have hstep : calculate_performance_metrics sqrtf powf (r0 :: rest) trades =
        if ((r0 :: rest).getLast (List.cons_ne_nil r0 rest)).bar.date - r0.bar.date = 0 then
          .error zeroDivMsg
        else .ok (metricsBody sqrtf powf r0 rest trades) := rfl
    rw [hstep] at h
    split at h
    · simp at h
    · simp only [Except.ok.injEq] at h
      have hm : m = (metricsBody sqrtf powf r0 rest trades).1 := by rw [h]
      subst hm
      simp only [metricsBody]
      rw [if_neg hne]
      simp only
      constructor
      · intro heq
        rw [if_neg]
        intro hcontra
        omega
      · intro hlt hnz
        have hl : (0 : ℤ) < (trades.length : ℤ) -
            ((trades.filter (fun t => 0 < t.profit_loss)).length : ℤ) := by omega
        rw [if_pos hl, if_pos]
        · rw [if_neg]
          · have hparse :
                parseNum (if 0 < ((trades.filter (fun t => 0 < t.profit_loss)).length : ℤ) then
                  add_arrow (.q (mean ((trades.filter (fun t => 0 < t.profit_loss)).map
                    Trade.profit_loss))) else .i 0) =
                round2 (mean ((trades.filter (fun t => 0 < t.profit_loss)).map
                  Trade.profit_loss)) := by
              by_cases hw : 0 < ((trades.filter (fun t => 0 < t.profit_loss)).length : ℤ)
              · rw [if_pos hw]; rfl
              · rw [if_neg hw]
                have hwz : (trades.filter (fun t => 0 < t.profit_loss)).length = 0 := by omega
                have hempty : trades.filter (fun t => 0 < t.profit_loss) = [] :=
                  List.length_eq_zero.mp hwz
                rw [hempty]
                simp [parseNum, mean, round2]
            rw [hparse]
            simp only [add_arrow, parseNum]
            have hcast : (((trades.length : ℤ) -
                ((trades.filter (fun t => 0 < t.profit_loss)).length : ℤ) : ℤ) : ℚ) =
                (trades.length : ℚ) -
                ((trades.filter (fun t => 0 < t.profit_loss)).length : ℚ) := by
              push_cast
              ring
            rw [hcast]
            norm_cast
          · have hlq : (((trades.length : ℤ) -
                ((trades.filter (fun t => 0 < t.profit_loss)).length : ℤ) : ℤ) : ℚ) ≠ 0 := by
              have : ((trades.length : ℤ) -
                  ((trades.filter (fun t => 0 < t.profit_loss)).length : ℤ)) ≠ 0 := by omega
              exact_mod_cast this
            exact mul_ne_zero hnz hlq
        · refine ⟨?_, hl⟩
          simp [add_arrow, MVal_s_eq_i_iff]

/-- Witness for C6: the amended profit-factor equation instantiated at the
winners-1-1-2, loser-−1 trade log on the flat two-row frame. -/
theorem C6_witness :
    (metricsOk demoRows demoTrades6).profit_factor = add_arrow (.q
      |round2 (mean ((demoTrades6.filter (fun t => 0 < t.profit_loss)).map Trade.profit_loss)) *
          ((demoTrades6.filter (fun t => 0 < t.profit_loss)).length : ℚ) /
        (round2 (mean ((demoTrades6.filter (fun t => ¬ 0 < t.profit_loss)).map
            Trade.profit_loss)) *
          ((demoTrades6.length : ℚ) -
            ((demoTrades6.filter (fun t => 0 < t.profit_loss)).length : ℚ)))|) := by
  have hEval : calculate_performance_metrics dummySqrt dummyPow demoRows demoTrades6 =
      .ok (metricsOk demoRows demoTrades6, prowsOk demoRows demoTrades6) := by
    have hstep : calculate_performance_metrics dummySqrt dummyPow demoRows demoTrades6 =
        if ((demoRows.get ⟨0, by norm_num [demoRows]⟩ ::
              [demoRows.get ⟨1, by norm_num [demoRows]⟩]).getLast (by simp)).bar.date -
            (demoRows.get ⟨0, by norm_num [demoRows]⟩).bar.date = 0 then
          .error zeroDivMsg
        else .ok (metricsBody dummySqrt dummyPow (demoRows.get ⟨0, by norm_num [demoRows]⟩)
          [demoRows.get ⟨1, by norm_num [demoRows]⟩] demoTrades6) := rfl
    simp only [metricsOk, prowsOk, hstep]
    norm_num [demoRows]
  exact (C6_profit_factor_amended dummySqrt dummyPow demoRows demoTrades6 _ _ hEval
    (by simp [demoTrades6])).2
    (by norm_num [demoTrades6, mkT])
    (by norm_num [demoTrades6, mkT, mean, round2, round_eq])

/-! ## Claim C8 -/

/-- C8 counterexample: the metrics set computed on the flat frame with an
empty trade log stores the plain integer 0 under `avg_profit`; the formatter's
`metrics[key] != 0` guard skips it, so the displayed value is the raw number
0, not the down-arrow string "0.00 ↓" (and not any arrow-annotated string). -/
theorem C8_counterexample :
    (format_metrics_for_display (metricsOk demoRows [])).avg_profit = MVal.i 0 ∧
    MVal.i 0 ≠ MVal.s 0 true ∧ MVal.i 0 ≠ MVal.s 0 false := by
  have hstep : metricsOk demoRows [] =
      (metricsBody dummySqrt dummyPow (demoRows.get ⟨0, by norm_num [demoRows]⟩)
        [demoRows.get ⟨1, by norm_num [demoRows]⟩] []).1 := rfl
  have hm : (metricsOk demoRows []).avg_profit = MVal.i 0 := by
    rw [hstep]
    simp [metricsBody]
  refine ⟨?_, fun hcontra => MVal.noConfusion hcontra,
    fun hcontra => MVal.noConfusion hcontra⟩
  simp [format_metrics_for_display, fmtNumericEntry, isPyZero, hm]

/-- C8 amended: the formatter applies its zero-guarded arrow annotation to
each of the eleven non-count numeric keys; a nonzero numeric value `v` becomes
the string of `v` rounded to two decimals with `↑` when `v > 0` and `↓`
otherwise — but a value equal to exactly 0 (integer or float) fails the
`metrics[key] != 0` guard and is passed through as the raw number 0 with no
arrow at all. -/
theorem C8_formatting_amended :
    (∀ m : MetricsSet,
      (format_metrics_for_display m).total_return = fmtNumericEntry m.total_return ∧
      (format_metrics_for_display m).annual_return = fmtNumericEntry m.annual_return ∧
      (format_metrics_for_display m).volatility = fmtNumericEntry m.volatility ∧
      (format_metrics_for_display m).win_rate = fmtNumericEntry m.win_rate ∧
      (format_metrics_for_display m).max_drawdown = fmtNumericEntry m.max_drawdown ∧
      (format_metrics_for_display m).avg_profit = fmtNumericEntry m.avg_profit ∧
      (format_metrics_for_display m).avg_loss = fmtNumericEntry m.avg_loss ∧
      (format_metrics_for_display m).avg_profit_pct = fmtNumericEntry m.avg_profit_pct ∧
      (format_metrics_for_display m).avg_loss_pct = fmtNumericEntry m.avg_loss_pct ∧
      (format_metrics_for_display m).sharpe_ratio = fmtNumericEntry m.sharpe_ratio ∧
      (format_metrics_for_display m).profit_factor = fmtNumericEntry m.profit_factor ∧
      (format_metrics_for_display m).total_trades = m.total_trades ∧
      (format_metrics_for_display m).winning_trades = m.winning_trades ∧
      (format_metrics_for_display m).losing_trades = m.losing_trades) ∧
    (∀ x : ℚ, x ≠ 0 →
      fmtNumericEntry (MVal.q x) = MVal.s (round2 x) (decide (0 < x))) ∧
    (∀ n : ℤ, n ≠ 0 →
      fmtNumericEntry (MVal.i n) = MVal.s (round2 (n : ℚ)) (decide (0 < n))) ∧
    fmtNumericEntry (MVal.i 0) = MVal.i 0 ∧
    fmtNumericEntry (MVal.q 0) = MVal.q 0 := by
  refine ⟨fun m => ⟨rfl, rfl, rfl, rfl, rfl, rfl, rfl, rfl, rfl, rfl, rfl, rfl, rfl, rfl⟩,
    ?_, ?_, ?_, ?_⟩
  · intro x hx
    simp [fmtNumericEntry, isPyZero, hx, viz_add_arrow]
  · intro n hn
    simp [fmtNumericEntry, isPyZero, hn, viz_add_arrow]
  · simp [fmtNumericEntry, isPyZero]
  · simp [fmtNumericEntry, isPyZero]

/-- Witness for C8: a concrete nonzero value is formatted with an arrow. -/
theorem C8_witness :
    fmtNumericEntry (MVal.q (37/10)) = MVal.s (round2 (37/10)) (decide ((0 : ℚ) < 37/10)) :=
  C8_formatting_amended.2.1 (37/10) (by norm_num)

/-! ## Claim C9 -/

/-- One loop iteration reads only the date, close and signal of its bar: on
bars with equal `barSig` it produces the same state, the same trades, and rows
equal in every portfolio column. -/
theorem simStep_congr (st : SimState) (b1 b2 : Bar) (h : barSig b1 = barSig b2) :
    (simStep st b1).1 = (simStep st b2).1 ∧
    rowData (simStep st b1).2.1 = rowData (simStep st b2).2.1 ∧
    (simStep st b1).2.2 = (simStep st b2).2.2 := by
  obtain ⟨hd, hc, hs⟩ : b1.date = b2.date ∧ b1.close = b2.close ∧ b1.signal = b2.signal := by
    simpa [barSig, Prod.mk.injEq] using h
  refine ⟨?_, ?_, ?_⟩ <;> simp [simStep, rowData, hd, hc, hs]

/-- The simulation loop is determined by the `barSig` projection of its
input bars. -/
theorem simGo_congr (bs1 : List Bar) :
    ∀ (bs2 : List Bar) (st : SimState), bs1.map barSig = bs2.map barSig →
      (simGo st bs1).1.map rowData = (simGo st bs2).1.map rowData ∧
      (simGo st bs1).2.1 = (simGo st bs2).2.1 ∧
      (simGo st bs1).2.2 = (simGo st bs2).2.2 := by
  induction bs1 with
  | nil =>
    intro bs2 st h
    cases bs2 with
    | nil => exact ⟨rfl, rfl, rfl⟩
    | cons b bs => simp at h
  | cons b1 bs1 ih =>
    intro bs2 st h
    cases bs2 with
    | nil => simp at h
    | cons b2 bs2 =>
      simp only [List.map_cons, List.cons.injEq] at h
      obtain ⟨hb, hbs⟩ := h
      obtain ⟨h1, h2, h3⟩ := simStep_congr st b1 b2 hb
      obtain ⟨g1, g2, g3⟩ := ih bs2 (simStep st b1).1 hbs
      refine ⟨?_, ?_, ?_⟩
      · simp only [simGo, List.map_cons]
        rw [h2, g1, h1]
      · simp only [simGo]
        rw [h3, g2, h1]
      · simp only [simGo]
        rw [g3, h1]

/-- The cumulative-returns post-pass is determined by the portfolio columns of
its input rows. -/
theorem applyCumulativeAux_congr (rs1 : List Row) :
    ∀ (rs2 : List Row) (acc : ℚ), rs1.map rowData = rs2.map rowData →
      (applyCumulativeAux acc rs1).map rowData = (applyCumulativeAux acc rs2).map rowData := by
  induction rs1 with
  | nil =>
    intro rs2 acc h
    cases rs2 with
    | nil => rfl
    | cons r rs => simp at h
  | cons r1 rs1 ih =>
    intro rs2 acc h
    cases rs2 with
    | nil => simp at h
    | cons r2 rs2 =>
      simp only [List.map_cons, List.cons.injEq] at h
      obtain ⟨hr, hrs⟩ := h
      have hret : r1.returns = r2.returns := congrArg (fun p => p.2.2.2.2.1) hr
      have hacc : acc * (1 + r1.returns) = acc * (1 + r2.returns) := by rw [hret]
      have hpos : r1.position = r2.position := congrArg (fun p => p.1) hr
      have hcash : r1.cash = r2.cash := congrArg (fun p => p.2.1) hr
      have hhold : r1.holdings = r2.holdings := congrArg (fun p => p.2.2.1) hr
      have htv : r1.total_value = r2.total_value := congrArg (fun p => p.2.2.2.1) hr
      have hhead : rowData { r1 with cumulative_returns := acc * (1 + r1.returns) - 1 } =
          rowData { r2 with cumulative_returns := acc * (1 + r2.returns) - 1 } := by
        simp only [rowData]
        rw [hpos, hcash, hhold, htv, hret]
      have htail : List.map rowData (applyCumulativeAux (acc * (1 + r1.returns)) rs1) =
          List.map rowData (applyCumulativeAux (acc * (1 + r2.returns)) rs2) := by
        rw [← hacc]
        exact ih rs2 _ hrs
      simp only [applyCumulativeAux, List.map_cons]
      rw [hhead, htail]

/-- The whole simulation pass is determined by the `barSig` projection. -/
theorem simRun_congr (bars1 bars2 : List Bar) (cap : ℚ)
    (h : bars1.map barSig = bars2.map barSig) :
    (simRun bars1 cap).1.map rowData = (simRun bars2 cap).1.map rowData ∧
    (simRun bars1 cap).2.1 = (simRun bars2 cap).2.1 ∧
    (simRun bars1 cap).2.2 = (simRun bars2 cap).2.2 := by
  cases bars1 with
  | nil =>
    cases bars2 with
    | nil => exact ⟨rfl, rfl, rfl⟩
    | cons b bs => simp at h
  | cons b1 bs1 =>
    cases bars2 with
    | nil => simp at h
    | cons b2 bs2 =>
      simp only [List.map_cons, List.cons.injEq] at h
      obtain ⟨hb, hbs⟩ := h
      obtain ⟨g1, g2, g3⟩ := simGo_congr bs1 bs2 (initState cap) hbs
      refine ⟨?_, g2, g3⟩
      simp only [simRun, List.map_cons]
      rw [g1]
      simp [rowData, row0]

/-- The forced close reads only the close and date of the last bar. -/
theorem forceClose_congr (st : SimState) (b1 b2 : Bar) (h : barSig b1 = barSig b2) :
    forceClose st b1 = forceClose st b2 := by
  obtain ⟨hd, hc, hs⟩ : b1.date = b2.date ∧ b1.close = b2.close ∧ b1.signal = b2.signal := by
    simpa [barSig, Prod.mk.injEq] using h
  simp [forceClose, hd, hc]

/-- C9: the simulator is a pure function of the bar series content it reads
(timestamp, close, signal) and the initial capital: two runs on inputs that
agree on those — whatever other columns the frames carry — produce identical
trade logs and identical portfolio columns.  In particular, two runs on
identical inputs produce identical results; there is no hidden randomness or
time-of-day dependency, and (the code copies its input frame up front) no
effect beyond the returned pair. -/
theorem C9_determinism (bars1 bars2 : List Bar) (cap : ℚ)
    (h : bars1.map barSig = bars2.map barSig) :
    (backtest bars1 cap).1.map rowData = (backtest bars2 cap).1.map rowData ∧
    (backtest bars1 cap).2 = (backtest bars2 cap).2 := by
  obtain ⟨g1, g2, g3⟩ := simRun_congr bars1 bars2 cap h
  constructor
  · simp only [backtest, applyCumulative]
    exact applyCumulativeAux_congr _ _ _ g1
  · simp only [backtest]
    rw [g2]
    have hlast : bars1.getLast?.map barSig = bars2.getLast?.map barSig := by
      rw [← List.getLast?_map, ← List.getLast?_map, h]
    cases hl1 : bars1.getLast? with
    | none =>
      cases hl2 : bars2.getLast? with
      | none => simp [hl1, hl2]
      | some b => rw [hl1, hl2] at hlast; simp at hlast
    | some b1l =>
      cases hl2 : bars2.getLast? with
      | none => rw [hl1, hl2] at hlast; simp at hlast
      | some b2l =>
        rw [hl1, hl2] at hlast
        simp only [Option.map_some'] at hlast
        have hsig : barSig b1l = barSig b2l := by
          injection hlast
        simp only [hl1, hl2]
        rw [g3, forceClose_congr (simRun bars2 cap).2.2 b1l b2l hsig]

/-- Witness for C9: the end-to-end scenario bars with and without an extra
column value on the first bar give identical trades and portfolio columns. -/
theorem C9_witness :
    (backtest demoBars 1000).1.map rowData = (backtest demoBarsX 1000).1.map rowData ∧
    (backtest demoBars 1000).2 = (backtest demoBarsX 1000).2 :=
  C9_determinism demoBars demoBarsX 1000 (by simp [demoBars, demoBarsX, barSig])

/-! ## Claim C10 -/

/-- The running-maximum tail preserves length. -/
theorem cummaxAux_length (xs : List ℚ) : ∀ acc : ℚ, (cummaxAux acc xs).length = xs.length := by
  induction xs with
  | nil => intro acc; rfl
  | cons x xs ih => intro acc; simp [cummaxAux, ih]

/-- `cummax` preserves length. -/
theorem cummax_length (xs : List ℚ) : (cummax xs).length = xs.length := by
  cases xs with
  | nil => rfl
  | cons x xs => simp [cummax, cummaxAux_length]

/-- Element `i` of the running-maximum tail is the maximum of the accumulator
and the prefix maximum of the first `i+1` tail elements. -/
theorem cummaxAux_get (xs : List ℚ) :
    ∀ (acc : ℚ) (i : ℕ) (hi : i < (cummaxAux acc xs).length),
      (cummaxAux acc xs).get ⟨i, hi⟩ = max acc (prefixMax xs i) := by
  induction xs with
  | nil => intro acc i hi; simp [cummaxAux] at hi
  | cons x xs ih =>
    intro acc i hi
    cases i with
    | zero => simp [cummaxAux, prefixMax]
    | succ n =>
      have hn : n < (cummaxAux (max acc x) xs).length := by
        simpa [cummaxAux] using hi
      simp only [cummaxAux, List.get_cons_succ]
      rw [ih (max acc x) n hn]
      simp only [prefixMax]
      rw [max_assoc]

/-- Element `i` of pandas `cummax` is the maximum of the first `i+1`
elements. -/
theorem cummax_get (xs : List ℚ) (i : ℕ) (hi : i < (cummax xs).length) :
    (cummax xs).get ⟨i, hi⟩ = prefixMax xs i := by
  cases xs with
  | nil => simp [cummax] at hi
  | cons x xs =>
    cases i with
    | zero => simp [cummax, prefixMax]
    | succ n =>
      have hn : n < (cummaxAux x xs).length := by simpa [cummax] using hi
      simp only [cummax, List.get_cons_succ]
      rw [cummaxAux_get xs x n hn]
      simp [prefixMax]

/-- Zipping rows with their two new column values and projecting the row back
is the identity when enough column values are supplied. -/
theorem zipWith_mk_map_row (rs : List Row) :
    ∀ ps : List (ℚ × ℚ), rs.length ≤ ps.length →
      (List.zipWith (fun (r : Row) (pd : ℚ × ℚ) => PRow.mk r pd.1 pd.2) rs ps).map PRow.row
        = rs := by
  induction rs with
  | nil => intro ps h; simp
  | cons r rs ih =>
    intro ps h
    cases ps with
    | nil => simp at h
    | cons p ps =>
      simp only [List.zipWith_cons_cons, List.map_cons, List.cons.injEq]
      exact ⟨trivial, ih ps (by simpa using h)⟩

/-- C10: whenever the metrics computation returns, the frame handed back to
the caller is the input frame with all previously existing columns unchanged
plus two new columns written by the call: `previous_peak`, the running maximum
of `total_value` (the maximum of the first `i+1` values at row `i`), and
`drawdown = (total_value - previous_peak) / previous_peak` — the in-place
pandas mutation of the caller's frame, modelled as the returned post-call
frame. -/
theorem C10_metrics_mutation (sqrtf : ℚ → ℚ) (powf : ℚ → ℚ → ℚ)
    (rows : List Row) (trades : List Trade) (m : MetricsSet) (prows : List PRow)
    (h : calculate_performance_metrics sqrtf powf rows trades = .ok (m, prows)) :
    prows.map PRow.row = rows ∧
    ∀ (i : ℕ) (hi : i < prows.length),
      (prows.get ⟨i, hi⟩).previous_peak = prefixMax (rows.map Row.total_value) i ∧
      (prows.get ⟨i, hi⟩).drawdown =
        ((rows.map Row.total_value).getD i 0 - prefixMax (rows.map Row.total_value) i) /
          prefixMax (rows.map Row.total_value) i := by
  cases rows with
  | nil => simp [calculate_performance_metrics] at h
  | cons r0 rest =>
    have hstep : calculate_performance_metrics sqrtf powf (r0 :: rest) trades =
        if ((r0 :: rest).getLast (List.cons_ne_nil r0 rest)).bar.date - r0.bar.date = 0 then
          .error zeroDivMsg
        else .ok (metricsBody sqrtf powf r0 rest trades) := rfl
    rw [hstep] at h
    split at h
    · simp at h
    · simp only [Except.ok.injEq] at h
      have hp : prows = (metricsBody sqrtf powf r0 rest trades).2 := by rw [h]
      subst hp
      have hbody : (metricsBody sqrtf powf r0 rest trades).2 =
          List.zipWith (fun (r : Row) (pd : ℚ × ℚ) => PRow.mk r pd.1 pd.2) (r0 :: rest)
            ((cummax ((r0 :: rest).map Row.total_value)).zip
              (List.zipWith (fun tv pk => (tv - pk) / pk) ((r0 :: rest).map Row.total_value)
                (cummax ((r0 :: rest).map Row.total_value)))) := by
        simp only [metricsBody]
        split <;> rfl
      rw [hbody]
      have hlen1 : ((r0 :: rest).map Row.total_value).length = (r0 :: rest).length :=
        List.length_map _ _
      have hlenc : (cummax ((r0 :: rest).map Row.total_value)).length =
          ((r0 :: rest).map Row.total_value).length :=
        cummax_length _
      have hlendd : (List.zipWith (fun tv pk => (tv - pk) / pk)
          ((r0 :: rest).map Row.total_value)
          (cummax ((r0 :: rest).map Row.total_value))).length =
          ((r0 :: rest).map Row.total_value).length := by
        simp [List.length_zipWith, cummax_length]
      have hlenzip : ((cummax ((r0 :: rest).map Row.total_value)).zip
          (List.zipWith (fun tv pk => (tv - pk) / pk) ((r0 :: rest).map Row.total_value)
            (cummax ((r0 :: rest).map Row.total_value)))).length =
          ((r0 :: rest).map Row.total_value).length := by
        simp [List.length_zip, List.length_zipWith, cummax_length]
      constructor
      · refine zipWith_mk_map_row _ _ ?_
        rw [hlenzip, hlen1]
      · intro i hi
        have hiz : i < ((cummax ((r0 :: rest).map Row.total_value)).zip
            (List.zipWith (fun tv pk => (tv - pk) / pk) ((r0 :: rest).map Row.total_value)
              (cummax ((r0 :: rest).map Row.total_value)))).length := by
          simp only [List.length_zipWith] at hi
          omega
        have hic : i < (cummax ((r0 :: rest).map Row.total_value)).length := by omega
        have hitv : i < ((r0 :: rest).map Row.total_value).length := by omega
        have hidd : i < (List.zipWith (fun tv pk => (tv - pk) / pk)
            ((r0 :: rest).map Row.total_value)
            (cummax ((r0 :: rest).map Row.total_value))).length := by omega
        have hgetzw :
            (List.zipWith (fun (r : Row) (pd : ℚ × ℚ) => PRow.mk r pd.1 pd.2) (r0 :: rest)
              ((cummax ((r0 :: rest).map Row.total_value)).zip
                (List.zipWith (fun tv pk => (tv - pk) / pk)
                  ((r0 :: rest).map Row.total_value)
                  (cummax ((r0 :: rest).map Row.total_value))))).get ⟨i, hi⟩ =
            PRow.mk ((r0 :: rest).get ⟨i, by omega⟩)
              ((cummax ((r0 :: rest).map Row.total_value)).get ⟨i, hic⟩)
              ((List.zipWith (fun tv pk => (tv - pk) / pk)
                ((r0 :: rest).map Row.total_value)
                (cummax ((r0 :: rest).map Row.total_value))).get ⟨i, hidd⟩) := by
          simp [List.get_eq_getElem, List.getElem_zipWith, List.getElem_zip]
        have hgetdd :
            (List.zipWith (fun tv pk => (tv - pk) / pk) ((r0 :: rest).map Row.total_value)
              (cummax ((r0 :: rest).map Row.total_value))).get ⟨i, hidd⟩ =
            (((r0 :: rest).map Row.total_value).get ⟨i, hitv⟩ -
              (cummax ((r0 :: rest).map Row.total_value)).get ⟨i, hic⟩) /
              (cummax ((r0 :: rest).map Row.total_value)).get ⟨i, hic⟩ := by
          simp [List.get_eq_getElem, List.getElem_zipWith]
        have hgetD : ((r0 :: rest).map Row.total_value).getD i 0 =
            ((r0 :: rest).map Row.total_value).get ⟨i, hitv⟩ := by
          rw [List.getD_eq_getElem?_getD, List.getElem?_eq_getElem hitv]
          simp [List.get_eq_getElem]
        rw [hgetzw]
        constructor
        · simp only
          exact cummax_get _ i hic
        · simp only
          rw [hgetdd, hgetD, cummax_get _ i hic]

/-- Witness for C10: on the flat two-row frame with the demo trades the
post-call frame restricted to the original columns is the input frame. -/
theorem C10_witness :
    (prowsOk demoRows demoTrades6).map PRow.row = demoRows := by
  have hEval : calculate_performance_metrics dummySqrt dummyPow demoRows demoTrades6 =
      .ok (metricsOk demoRows demoTrades6, prowsOk demoRows demoTrades6) := by
    have hstep : calculate_performance_metrics dummySqrt dummyPow demoRows demoTrades6 =
        if ((demoRows.get ⟨0, by norm_num [demoRows]⟩ ::
              [demoRows.get ⟨1, by norm_num [demoRows]⟩]).getLast (by simp)).bar.date -
            (demoRows.get ⟨0, by norm_num [demoRows]⟩).bar.date = 0 then
          .error zeroDivMsg
        else .ok (metricsBody dummySqrt dummyPow (demoRows.get ⟨0, by norm_num [demoRows]⟩)
          [demoRows.get ⟨1, by norm_num [demoRows]⟩] demoTrades6) := rfl
    simp only [metricsOk, prowsOk, hstep]
    norm_num [demoRows]
  exact (C10_metrics_mutation dummySqrt dummyPow demoRows demoTrades6
    (metricsOk demoRows demoTrades6) (prowsOk demoRows demoTrades6) hEval).1

end TS
